import Mathlib

/-!
Verification of the news-to-video pipeline (news_auto repository).

Shallow embedding of the Python sources:
  * `src/dedup_manager.py`  — DedupManager (fingerprinting, TTL purge)
  * `src/audio_gen.py`      — AudioGenerator (TTS sanitization, provider fallback)
  * `src/script_gen.py`     — ScriptGenerator (combined pick+generate, backup template)
  * `src/video_editor.py`   — VideoEditor.assemble_video (timing, background, encode)
  * `main.py`               — orchestration (segment loop, dedup marking)

Strings are modelled as Lean `String`/`List Char` restricted to the ASCII
fragment of Python's character classes (`\s`, `\w`, `[A-Za-z]`); durations and
timestamps are modelled as exact rationals `ℚ`.  Network calls, the speech
engines, the headless browser and the ffmpeg encoder are external collaborators
and enter the model as explicit outcome parameters; everything the repository's
own code does with their results is translated literally.
-/

/-! ## Character helpers (ASCII fragment of Python's character classes) -/

/-- ASCII fragment of Python's `\s` class: space, tab, newline, carriage
return, form feed, vertical tab. -/
def isPySpace (c : Char) : Bool :=
  c = ' ' || c = '\t' || c = '\n' || c = '\r' || c = Char.ofNat 12 || c = Char.ofNat 11

/-- ASCII letter, Python's `[A-Za-z]`. -/
def isAsciiLetter (c : Char) : Bool :=
  ('a' ≤ c && c ≤ 'z') || ('A' ≤ c && c ≤ 'Z')

/-- ASCII fragment of Python's `\w` class: letters, digits, underscore. -/
def isWordChar (c : Char) : Bool :=
  isAsciiLetter c || ('0' ≤ c && c ≤ '9') || c = '_'

/-- ASCII lower-casing, Python's `str.lower` restricted to ASCII. -/
def lowerChar (c : Char) : Char :=
  if 'A' ≤ c && c ≤ 'Z' then Char.ofNat (c.toNat + 32) else c

/-- Drop trailing whitespace, the right half of Python's `str.strip()`. -/
def dropTrailingWs : List Char → List Char
  | [] => []
  | c :: rest =>
    let r := dropTrailingWs rest
    if r = [] && isPySpace c then [] else c :: r

/-- Python's `str.strip()` (ASCII whitespace): drop leading and trailing
whitespace. -/
def pyStrip (l : List Char) : List Char :=
  dropTrailingWs (l.dropWhile isPySpace)

/-- Python's `str.strip()` on `String`. -/
def pyStripStr (s : String) : String :=
  String.mk (pyStrip s.data)

/-- Match a literal pattern (case sensitively) at the front of a list,
returning the remainder on success.  Used to model `str.startswith` and
`str.replace` pattern matching. -/
def dropLit : List Char → List Char → Option (List Char)
  | [], l => some l
  | _ :: _, [] => none
  | p :: ps, c :: cs => if c = p then dropLit ps cs else none

/-- Remove every occurrence of the pattern `pat` from `l`, replacing it by
`repl`, scanning left to right without rescanning replacements: the semantics
of Python's `str.replace`.  Fuelled recursion; a fuel of `l.length` is enough
since every step consumes at least one character of `l` (for non-empty `pat`). -/
def replaceAllAux (fuel : Nat) (pat repl : List Char) : List Char → List Char
  | [] => []
  | c :: rest =>
    match fuel with
    | 0 => c :: rest
    | f + 1 =>
      match dropLit pat (c :: rest) with
      | some r => repl ++ replaceAllAux f pat repl r
      | none => c :: replaceAllAux f pat repl rest

/-- Python's `str.replace(pat, repl)` (for the non-empty patterns used by the
sources). -/
def pyReplace (s pat repl : String) : String :=
  if pat.data.isEmpty then s
  else String.mk (replaceAllAux s.data.length pat.data repl.data s.data)

/-- Helper for `pySplit`: split on the separator, accumulating the current
field in reverse. -/
def splitOnAux (fuel : Nat) (sep : List Char) : List Char → List Char → List (List Char)
  | [], acc => [acc.reverse]
  | c :: rest, acc =>
    match fuel with
    | 0 => [acc.reverse ++ (c :: rest)]
    | f + 1 =>
      match dropLit sep (c :: rest) with
      | some r => acc.reverse :: splitOnAux f sep r []
      | none => splitOnAux f sep rest (c :: acc)

/-- Python's `str.split(sep)` for a non-empty literal separator: in
particular `"".split(sep) = [""]` and adjacent separators yield empty
fields. -/
def pySplit (s sep : String) : List String :=
  (splitOnAux s.data.length sep.data s.data []).map String.mk

/-- Python's `sep.join(xs)`. -/
def pyJoin (sep : String) (xs : List String) : String :=
  match xs with
  | [] => ""
  | x :: rest => rest.foldl (fun acc y => acc ++ sep ++ y) x

/-- Test whether `pat` occurs as a substring, Python's `pat in s`. -/
def containsSub (l pat : List Char) : Bool :=
  match l with
  | [] => (dropLit pat ([] : List Char)).isSome
  | _ :: rest => (dropLit pat l).isSome || containsSub rest pat

/-- Python's `s.endswith(c)` for a single character. -/
def endsWithChar (s : String) (c : Char) : Bool :=
  s.data.getLast? = some c

/-! ## DedupManager (`src/dedup_manager.py`)

The dedup database `data["hashes"]` is a JSON object mapping an md5 hex digest
of the normalized title to `{timestamp, title, source}`.  The md5 digest is
modelled as the normalized title itself (an injective abstraction of the hex
digest; none of the verified properties depend on the digest's bit-level
representation, only on equality of fingerprints).  Only the timestamp field of
an entry is retained, since `is_duplicate`, `mark_processed` and
`_cleanup_expired` never read the other fields. -/

/-- Article record (`article` dicts produced by the news fetcher).  A missing
`title` key is modelled as the empty string, matching `article.get("title", "")`. -/
structure Article where
  articleId : String
  title : String
  description : String
  fullContent : String
  sourceId : String
deriving Repr, DecidableEq

/-- Dedup database: association list from fingerprint to timestamp, with
unique keys maintained by `dedupInsert` (models the Python dict
`self.data["hashes"]`). -/
abbrev DedupMap := List (String × ℚ)

/-- Dict membership test, `article_hash in self.data.get("hashes", {})`. -/
def dedupMember (db : DedupMap) (k : String) : Bool :=
  db.any (fun e => e.1 = k)

/-- Dict assignment `self.data["hashes"][article_hash] = {...}`: overwrite any
existing entry for the key. -/
def dedupInsert (db : DedupMap) (k : String) (ts : ℚ) : DedupMap :=
  (k, ts) :: db.filter (fun e => e.1 ≠ k)

/-- Boilerplate prefixes stripped by `DedupManager._generate_hash`, in source
order. -/
def boilerplatePrefixes : List (List Char) :=
  ["breaking:".data, "update:".data, "just in:".data, "exclusive:".data]

/-- One `if normalized.startswith(prefix): normalized = normalized[len(prefix):].strip()`
step of `_generate_hash`. -/
def stripOnePrefix (l : List Char) (pfx : List Char) : List Char :=
  match dropLit pfx l with
  | some rest => pyStrip rest
  | none => l

/-- Title normalization performed by `DedupManager._generate_hash`: lowercase,
strip, then strip each known boilerplate prefix in order. -/
def normalizeTitle (t : String) : String :=
  String.mk (boilerplatePrefixes.foldl stripOnePrefix (pyStrip (t.data.map lowerChar)))

/-- Fingerprint of a title, `DedupManager._generate_hash` (md5 modelled as the
identity on the normalized title). -/
def generateHash (t : String) : String :=
  normalizeTitle t

/-- `DedupManager.is_duplicate`: `False` for a missing/empty title, otherwise a
membership test of the title's fingerprint. -/
def isDuplicate (db : DedupMap) (a : Article) : Bool :=
  if a.title = "" then false
  else dedupMember db (generateHash a.title)

/-- Persistent dedup store: the in-memory mapping `self.data` plus the mapping
as last written to `self.db_file` by `_save_db`. -/
structure DedupStore where
  data : DedupMap
  fileData : DedupMap
deriving Repr, DecidableEq

/-- `DedupManager.mark_processed`: no-op on a missing/empty title; otherwise
insert the fingerprint with the current timestamp and save the database. -/
def markProcessed (st : DedupStore) (a : Article) (now : ℚ) : DedupStore :=
  if a.title = "" then st
  else
    let db := dedupInsert st.data (generateHash a.title) now
    { data := db, fileData := db }

/-- Retention window of `DedupManager` in seconds: `ttl_days * 24 * 60 * 60`
with `ttl_days = 7`. -/
def ttlSeconds : ℚ := 7 * 24 * 60 * 60

/-- `DedupManager._cleanup_expired` on the raw mapping: keep exactly the
entries with `current_time - timestamp <= ttl` (the source deletes those with
`current_time - entry["timestamp"] > ttl_seconds`). -/
def cleanupExpired (db : DedupMap) (now : ℚ) : DedupMap :=
  db.filter (fun e => now - e.2 ≤ ttlSeconds)

/-- `DedupManager.__init__` on an existing database file: load `self.db_file`,
then `_cleanup_expired` (which saves back iff something was expired). -/
def dedupLoad (fileDb : DedupMap) (now : ℚ) : DedupStore :=
  let cleaned := cleanupExpired fileDb now
  { data := cleaned
    fileData := if cleaned = fileDb then fileDb else cleaned }

/-! ## Theorems for claims C7 and C10 -/

theorem dedupMember_insert_self (db : DedupMap) (k : String) (ts : ℚ) :
    dedupMember (dedupInsert db k ts) k = true := by
  simp [dedupMember, dedupInsert]

theorem dedupMember_cleanup_insert (db : DedupMap) (k : String) (ts now : ℚ)
    (h : now - ts > ttlSeconds) :
    dedupMember (cleanupExpired (dedupInsert db k ts) now) k = false := by
  simp only [dedupMember, cleanupExpired, dedupInsert, List.any_eq_true, not_exists,
    List.mem_filter, List.any_eq_false]
  rintro ⟨k', ts'⟩ ⟨hmem, hkeep⟩
  simp only [List.mem_cons, List.mem_filter, decide_eq_true_eq] at hmem hkeep
  rcases hmem with h1 | h2
  · cases h1
    intro _
    exact absurd hkeep (by simpa using not_le.mpr h)
  · intro hk
    simp only [decide_eq_true_eq] at hk
    exact h2.2 hk

/-- C7: dedup round-trip.  For every store, every article `A` with a non-empty
title and every timestamp `t`: (1) `mark_processed(A)` followed immediately by
`is_duplicate(A)` returns true; (2) if a later load happens at a time `t'` with
`t' - t` beyond the 7-day retention window, the fingerprint is purged by the
lazy cleanup on load and `is_duplicate(A)` returns false again; (3) any second
article whose title normalizes to the same string as `A`'s is reported as a
duplicate after `mark_processed(A)`, regardless of differing ids. -/
theorem dedup_round_trip (st : DedupStore) (a b : Article) (t tload : ℚ)
    (ha : a.title ≠ "") :
    isDuplicate (markProcessed st a t).data a = true ∧
    (tload - t > ttlSeconds →
      isDuplicate (dedupLoad (markProcessed st a t).fileData tload).data a = false) ∧
    (b.title ≠ "" → normalizeTitle b.title = normalizeTitle a.title →
      isDuplicate (markProcessed st a t).data b = true) := by
  refine ⟨?_, ?_, ?_⟩
  · simp [isDuplicate, markProcessed, ha, dedupMember_insert_self, generateHash]
  · intro hexp
    simp only [isDuplicate, markProcessed, ha, if_neg ha, dedupLoad]
    exact dedupMember_cleanup_insert st.data (generateHash a.title) t tload hexp
  · intro hb hnorm
    simp [isDuplicate, markProcessed, ha, hb, generateHash, hnorm, dedupMember_insert_self]

/-- Witness for C7 at a concrete store, two concretely-titled articles and
concrete timestamps eight days apart. -/
theorem dedup_round_trip_witness :
    let a : Article := ⟨"id-1", "Breaking: Big News", "", "", "src-a"⟩
    let b : Article := ⟨"id-2", "BIG NEWS", "", "", "src-b"⟩
    let st : DedupStore := ⟨[], []⟩
    isDuplicate (markProcessed st a 0).data a = true ∧
    ((8 * 86400 : ℚ) - 0 > ttlSeconds →
      isDuplicate (dedupLoad (markProcessed st a 0).fileData (8 * 86400)).data a = false) ∧
    (b.title ≠ "" → normalizeTitle b.title = normalizeTitle a.title →
      isDuplicate (markProcessed st a 0).data b = true) :=
  dedup_round_trip ⟨[], []⟩ _ _ 0 (8 * 86400) (by decide)

/-- C10: for every article record whose title is missing or empty,
`is_duplicate` returns false and `mark_processed` is a no-op leaving both the
in-memory mapping and the persisted file unchanged. -/
theorem dedup_empty_title_noop (st : DedupStore) (a : Article) (h : a.title = "") :
    isDuplicate st.data a = false ∧ markProcessed st a 0 = st ∧
    (∀ now : ℚ, markProcessed st a now = st) := by
  refine ⟨by simp [isDuplicate, h], by simp [markProcessed, h], fun now => by simp [markProcessed, h]⟩

/-- Witness for C10 at a concrete non-trivial store and an article with an
empty title. -/
theorem dedup_empty_title_noop_witness :
    let st : DedupStore := ⟨[("k", 3)], [("k", 3)]⟩
    let a : Article := ⟨"id-9", "", "d", "f", "s"⟩
    isDuplicate st.data a = false ∧ markProcessed st a 0 = st ∧
    (∀ now : ℚ, markProcessed st a now = st) :=
  dedup_empty_title_noop ⟨[("k", 3)], [("k", 3)]⟩ ⟨"id-9", "", "d", "f", "s"⟩ rfl

/-! ## ScriptGenerator (`src/script_gen.py`)

The Gemini HTTP interaction of `pick_and_generate_script` is an external
collaborator; its observable outcomes enter the model as `GeminiOutcome`.
`_backup_template`'s HTML cleaning primarily delegates to BeautifulSoup
(an external parser), so the cleaner is a parameter `htmlClean`; the source's
own `ImportError` fallback cleaning is also modelled (`htmlCleanFallback`) and
is used by concrete witnesses. -/

/-- Script segment: `{"visual": ..., "script": ...}`. -/
structure SegmentS where
  visual : String
  script : String
deriving Repr, DecidableEq

/-- Script object returned by `ScriptGenerator` (the fields `main.py` and the
backup template use). -/
structure ScriptS where
  headline : String
  tickerText : String
  segments : List SegmentS
  viralDescription : String
  viralTags : List String
  videoSearchKeywords : List String
deriving Repr, DecidableEq

/-- The source's non-BeautifulSoup HTML cleaning fallback in
`_backup_template`: literal removal of a few tags and newline flattening. -/
def htmlCleanFallback (s : String) : String :=
  pyReplace (pyReplace (pyReplace (pyReplace (pyReplace s "<p>" "") "</p>" "") "<b>" "") "</b>" "") "\n" " "

/-- Truncated-title cleanup branch of `_backup_template`:
`title.replace('...','').replace('…','').strip()` then drop a trailing
apostrophe or colon. -/
def cleanTruncatedTitle (t : String) : String :=
  let t1 := pyStripStr (pyReplace (pyReplace t "..." "") "…" "")
  if endsWithChar t1 (Char.ofNat 39) || endsWithChar t1 ':' then
    pyStripStr (t1.dropRight 1)
  else t1

/-- Headline selection of `_backup_template`: detect a truncated title
(contains an ellipsis or ends with an apostrophe) and try to replace it with
the first sentence of the content when that sentence has a reasonable length
(strictly between 20 and 150 characters). -/
def backupHeadline (a : Article) : String :=
  let title0 := if a.title = "" then "Breaking News" else a.title
  if containsSub title0.data "...".data || containsSub title0.data "…".data ||
      endsWithChar title0 (Char.ofNat 39) then
    let content := if a.fullContent ≠ "" then a.fullContent else a.description
    if content ≠ "" then
      let first := pyStripStr ((pySplit content ".").headD "")
      if 20 < first.length && first.length < 150 then first
      else cleanTruncatedTitle title0
    else title0
  else title0

/-- State of the chunking loop in `_backup_template`: accumulated segments,
the words of the segment under construction, and `current_len`. -/
structure ChunkState where
  segs : List SegmentS
  cur : List String
  curLen : Nat
deriving Repr, DecidableEq

/-- One iteration of `for word in words` in `_backup_template`: flush the
current chunk once adding the next word would push `current_len` past 150,
otherwise append the word (counting one extra character for the joining
space). -/
def chunkStep (st : ChunkState) (w : String) : ChunkState :=
  if st.curLen + w.length > 150 then
    let text := pyJoin " " st.cur
    { segs := st.segs ++ [⟨text, text⟩], cur := [w], curLen := w.length }
  else
    { st with cur := st.cur ++ [w], curLen := st.curLen + w.length + 1 }

/-- Segment construction of `_backup_template`: split the cleaned content on
single spaces, chunk into roughly-150-character pieces (visual = script),
flush the last chunk, keep at most 5 segments, and fall back to a single
segment if none were built. -/
def backupSegments (content : String) : List SegmentS :=
  let st := (pySplit content " ").foldl chunkStep ⟨[], [], 0⟩
  let segs := if st.cur ≠ [] then st.segs ++ [⟨pyJoin " " st.cur, pyJoin " " st.cur⟩] else st.segs
  let segs := segs.take 5
  if segs = [] then [⟨content.take 100, content⟩] else segs

/-- Content selection of `_backup_template`:
`article.get('full_content','') or article.get('description','') or "More details to follow."`. -/
def backupContentSource (a : Article) : String :=
  if a.fullContent ≠ "" then a.fullContent
  else if a.description ≠ "" then a.description
  else "More details to follow."

/-- `ScriptGenerator._backup_template`: the local deterministic fallback
script generator. -/
def backupTemplate (htmlClean : String → String) (a : Article) : ScriptS :=
  let fullTitle := backupHeadline a
  { headline := fullTitle
    tickerText := "BREAKING: " ++ fullTitle
    segments := backupSegments (htmlClean (backupContentSource a))
    viralDescription := "Breaking news: " ++ fullTitle ++ " #shorts #news"
    viralTags := ["#breaking", "#news"]
    videoSearchKeywords := ["news", "breaking"] }

/-- Observable outcome of the Gemini interaction inside
`pick_and_generate_script`: the generator is unavailable (disabled flag, no
API key, or model discovery failed), all three retries failed, or one attempt
returned HTTP 200 with a parsed JSON carrying `chosen_index` and the script
fields.  Negative `chosen_index` values are excluded by the `Nat` index (the
source clamps them to 0 exactly as it clamps too-large ones). -/
inductive GeminiOutcome where
  | unavailable : GeminiOutcome
  | exhausted : GeminiOutcome
  | success : Nat → ScriptS → GeminiOutcome
deriving Repr, DecidableEq

/-- `ScriptGenerator.pick_and_generate_script`: `None` on an empty pool;
backup template over `articles[0]` when Gemini is unavailable or all retries
are exhausted; on success the clamped chosen index selects the article (the
in-place prefix cleaning the source applies to the returned segment strings is
not modelled: no verified claim mentions the success-path script contents). -/
def pickAndGenerateScript (htmlClean : String → String) (articles : List Article)
    (g : GeminiOutcome) : Option (Article × ScriptS) :=
  match articles with
  | [] => none
  | a0 :: _ =>
    match g with
    | .unavailable => some (a0, backupTemplate htmlClean a0)
    | .exhausted => some (a0, backupTemplate htmlClean a0)
    | .success idx s =>
      let cidx := if idx < articles.length then idx else 0
      some (articles.getD cidx a0, s)

/-! ## Theorems for claim C9 -/

theorem backupSegments_ne_nil (content : String) : backupSegments content ≠ [] := by
  simp only [backupSegments]
  split <;> split
  · exact List.cons_ne_nil _ _
  · next h => exact h
  · exact List.cons_ne_nil _ _
  · next h => exact h

/-- C9: for every non-empty candidate pool the combined pick-and-generate
operation returns a script rather than failure, and whenever the
network-backed generator is unavailable or its retries are exhausted the
result is the deterministic backup template over the first candidate, whose
segments list is never empty (each entry carrying both a visual and a spoken
text field by construction of `SegmentS`). -/
theorem pick_and_generate_total (htmlClean : String → String) (a0 : Article)
    (rest : List Article) (g : GeminiOutcome) :
    (pickAndGenerateScript htmlClean (a0 :: rest) g).isSome = true ∧
    (g = .unavailable ∨ g = .exhausted →
      pickAndGenerateScript htmlClean (a0 :: rest) g =
        some (a0, backupTemplate htmlClean a0) ∧
      (backupTemplate htmlClean a0).segments ≠ []) := by
  constructor
  · cases g <;> simp [pickAndGenerateScript]
  · rintro (rfl | rfl) <;>
      exact ⟨rfl, backupSegments_ne_nil _⟩

/-- Witness for C9: concrete pool of one article, the generator's retries
exhausted, evaluating to the backup template with a non-empty segments list. -/
theorem pick_and_generate_total_witness :
    let a : Article := ⟨"id-1", "Quiet Day", "Nothing much happened today.", "", "src"⟩
    (pickAndGenerateScript htmlCleanFallback [a] .exhausted).isSome = true ∧
    (pickAndGenerateScript htmlCleanFallback [a] .exhausted =
      some (a, backupTemplate htmlCleanFallback a) ∧
      (backupTemplate htmlCleanFallback a).segments ≠ []) :=
  ⟨(pick_and_generate_total htmlCleanFallback _ [] .exhausted).1,
   (pick_and_generate_total htmlCleanFallback _ [] .exhausted).2 (Or.inr rfl)⟩

/-! ## TTS sanitization (`AudioGenerator._sanitize_for_tts`, `src/audio_gen.py`)

The function is a six-stage pipeline: literal pattern removal, an anchored
leading `words:`/`words=` regex, a global keyword regex with word boundaries,
three standalone-keyword regexes, bracket-group removal, leading separator
stripping, and whitespace normalization.  Each Python regex used is simple
enough that its matching is deterministic (its character classes are pairwise
disjoint wherever greediness could interact), and is translated into a direct
scanner below; scanners recurse on an explicit fuel bounded by the input
length, since every step consumes at least one character. -/

/-- The `exact_patterns` literal list of `_sanitize_for_tts` STEP 0, in source
order. -/
def exactPatterns : List String :=
  ["Voice name = Inner Engineer", "voice name = Inner Engineer",
   "Voice name = inner engineer", "Voice Name = Inner Engineer",
   "Voice name =", "voice name =", "Voice Name =", "voice Name =",
   "Voice name=", "voice name=", "VOICE NAME =", "VOICE NAME=",
   "Voice =", "voice =", "Voice=", "voice=", "Voice:", "voice:",
   "Voice -", "voice -", "VOICE =", "VOICE:",
   "Name =", "name =", "Name=", "name=", "Name:", "name:", "NAME =",
   "Inner Engineer", "inner engineer", "INNER ENGINEER",
   "Narrator:", "narrator:", "Narrator =", "narrator =", "NARRATOR:",
   "Speaker:", "speaker:", "Speaker =", "speaker =", "SPEAKER:",
   "Audio:", "audio:", "Audio =", "audio =", "AUDIO:",
   "VO:", "vo:", "VO =", "vo =",
   "Voiceover:", "voiceover:", "Voiceover =", "voiceover ="]

/-- STEP 0 of `_sanitize_for_tts`: remove each exact pattern with
`str.replace`, in list order. -/
def sanStep0 (s : String) : String :=
  exactPatterns.foldl (fun acc p => pyReplace acc p "") s

/-- Consume one or more ASCII letters (maximal munch, matching the
deterministic behaviour of `[A-Za-z]+` here). -/
def dropLetters1 (l : List Char) : Option (List Char) :=
  if (l.takeWhile isAsciiLetter).isEmpty then none else some (l.dropWhile isAsciiLetter)

/-- Consume one or more whitespace characters (maximal munch, `\s+`). -/
def dropWs1 (l : List Char) : Option (List Char) :=
  if (l.takeWhile isPySpace).isEmpty then none else some (l.dropWhile isPySpace)

/-- Consume exactly `k` repetitions of `[A-Za-z]+\s+`. -/
def dropGroupsN : Nat → List Char → Option (List Char)
  | 0, l => some l
  | n + 1, l => ((dropLetters1 l).bind dropWs1).bind (dropGroupsN n)

/-- Attempt the STEP 1 regex `^([A-Za-z]+\s+){0,5}[A-Za-z]+\s*[:=]\s*` with a
fixed repetition count `k`, returning the remainder after the match. -/
def sanStep1Match (k : Nat) (l : List Char) : Option (List Char) :=
  (dropGroupsN k l).bind fun l1 =>
  (dropLetters1 l1).bind fun l2 =>
  match l2.dropWhile isPySpace with
  | c :: rest => if c = ':' || c = '=' then some (rest.dropWhile isPySpace) else none
  | [] => none

/-- STEP 1 of `_sanitize_for_tts`: strip, then remove a leading run of up to
six words followed by `:` or `=` (repetition counts tried greedily from 5 down
to 0, Python's backtracking order for `{0,5}`). -/
def sanStep1 (l : List Char) : List Char :=
  let l := pyStrip l
  match sanStep1Match 5 l <|> sanStep1Match 4 l <|> sanStep1Match 3 l <|>
        sanStep1Match 2 l <|> sanStep1Match 1 l <|> sanStep1Match 0 l with
  | some rest => rest
  | none => l

/-- Case-insensitive literal match (ASCII), returning the remainder. -/
def matchCI : List Char → List Char → Option (List Char)
  | [], l => some l
  | _ :: _, [] => none
  | p :: ps, c :: cs => if lowerChar c = lowerChar p then matchCI ps cs else none

/-- Match `Inner\s+Engineer` case-insensitively. -/
def matchInnerWs1 (l : List Char) : Option (List Char) :=
  (matchCI "inner".data l).bind fun l1 =>
  if (l1.takeWhile isPySpace).isEmpty then none
  else matchCI "engineer".data (l1.dropWhile isPySpace)

/-- The STEP 2 alternation
`(Voice|Narrator|Speaker|Audio|VO|Voiceover|Name|Inner\s+Engineer)`, tried in
Python's left-to-right order. -/
def sanStep2Alt (l : List Char) : Option (List Char) :=
  matchCI "voice".data l <|> matchCI "narrator".data l <|> matchCI "speaker".data l <|>
  matchCI "audio".data l <|> matchCI "vo".data l <|> matchCI "voiceover".data l <|>
  matchCI "name".data l <|> matchInnerWs1 l

/-- Consume the STEP 2 tail `\s*[:=\-]?\s*`; the returned flag records whether
anything was consumed (if not, the last matched character was a keyword
letter, which matters for the next word-boundary test). -/
def eatSeps (l : List Char) : List Char × Bool :=
  let l1 := l.dropWhile isPySpace
  match l1 with
  | c :: rest =>
    if c = ':' || c = '=' || c = '-' then (rest.dropWhile isPySpace, true)
    else (l1, decide (l1.length < l.length))
  | [] => ([], decide (0 < l.length))

/-- Global scan for the STEP 2 substitution: at every word boundary try the
alternation followed by the separator tail; on a match drop it and continue
after it (Python's non-overlapping `re.sub` scan), otherwise keep the
character.  `prevWord` records whether the previous character of the original
string is a word character. -/
def sanStep2Scan (fuel : Nat) (prevWord : Bool) (l : List Char) : List Char :=
  match fuel, l with
  | _, [] => []
  | 0, l => l
  | f + 1, c :: rest =>
    if !prevWord then
      match sanStep2Alt (c :: rest) with
      | some r =>
        let p := eatSeps r
        sanStep2Scan f (!p.2) p.1
      | none => c :: sanStep2Scan f (isWordChar c) rest
    else c :: sanStep2Scan f (isWordChar c) rest

/-- STEP 2 of `_sanitize_for_tts`. -/
def sanStep2 (l : List Char) : List Char :=
  sanStep2Scan l.length false l

/-- Global scan for one STEP 3 substitution `\bW\b` (case-insensitive): the
matcher must be followed by a word boundary; after a removal the previous
character is the keyword's final letter, hence a word character. -/
def sanStep3Scan (m : List Char → Option (List Char)) (fuel : Nat) (prevWord : Bool)
    (l : List Char) : List Char :=
  match fuel, l with
  | _, [] => []
  | 0, l => l
  | f + 1, c :: rest =>
    if !prevWord then
      match m (c :: rest) with
      | some [] => []
      | some (d :: r) =>
        if isWordChar d then c :: sanStep3Scan m f (isWordChar c) rest
        else sanStep3Scan m f true (d :: r)
      | none => c :: sanStep3Scan m f (isWordChar c) rest
    else c :: sanStep3Scan m f (isWordChar c) rest

/-- Match `Inner\s*Engineer` case-insensitively (note `\s*`, unlike STEP 2). -/
def matchInnerWs0 (l : List Char) : Option (List Char) :=
  (matchCI "inner".data l).bind fun l1 => matchCI "engineer".data (l1.dropWhile isPySpace)

/-- STEP 3 of `_sanitize_for_tts`: the three standalone-keyword
substitutions `\bVoice\b`, `\bName\b`, `\bInner\s*Engineer\b`, in source
order. -/
def sanStep3 (l : List Char) : List Char :=
  let l1 := sanStep3Scan (matchCI "voice".data) l.length false l
  let l2 := sanStep3Scan (matchCI "name".data) l1.length false l1
  sanStep3Scan matchInnerWs0 l2.length false l2

/-- Opening bracket class `[\(\[\{]` of STEP 4. -/
def isOpener (c : Char) : Bool :=
  c = '(' || c = '[' || c = Char.ofNat 123

/-- Closing bracket class `[\)\]\}]` of STEP 4. -/
def isCloser (c : Char) : Bool :=
  c = ')' || c = ']' || c = Char.ofNat 125

/-- Find the first closing bracket within `n + 1` characters, returning the
remainder after it; all skipped characters are necessarily non-closers, which
is exactly the deterministic reading of `[^\)\]\}]{0,30}[\)\]\}]`. -/
def findCloser : Nat → List Char → Option (List Char)
  | _, [] => none
  | 0, c :: rest => if isCloser c then some rest else none
  | n + 1, c :: rest => if isCloser c then some rest else findCloser n rest

/-- Global scan for STEP 4, `[\(\[\{][^\)\]\}]{0,30}[\)\]\}]`: remove every
bracket group whose closer lies within 30 characters of its opener. -/
def sanStep4Scan (fuel : Nat) (l : List Char) : List Char :=
  match fuel, l with
  | _, [] => []
  | 0, l => l
  | f + 1, c :: rest =>
    if isOpener c then
      match findCloser 30 rest with
      | some r => sanStep4Scan f r
      | none => c :: sanStep4Scan f rest
    else c :: sanStep4Scan f rest

/-- STEP 4 of `_sanitize_for_tts`. -/
def sanStep4 (l : List Char) : List Char :=
  sanStep4Scan l.length l

/-- STEP 5 of `_sanitize_for_tts`: `^[\s:=\-]+` removal. -/
def sanStep5 (l : List Char) : List Char :=
  l.dropWhile (fun c => isPySpace c || c = ':' || c = '=' || c = '-')

/-- Collapse every maximal whitespace run to a single space:
`re.sub(r'\s+', ' ', clean)`.  Each maximal run is replaced when its last
character is reached. -/
def collapseWs : List Char → List Char
  | [] => []
  | [c] => if isPySpace c then [' '] else [c]
  | a :: b :: rest =>
    if isPySpace a && isPySpace b then collapseWs (b :: rest)
    else (if isPySpace a then ' ' else a) :: collapseWs (b :: rest)

/-- STEP 6 of `_sanitize_for_tts`: whitespace collapse followed by
`str.strip()`. -/
def sanStep6 (l : List Char) : List Char :=
  pyStrip (collapseWs l)

/-- `AudioGenerator._sanitize_for_tts`: the full sanitization pipeline
(`if not text: return ""`, then STEPs 0 through 6). -/
def sanitizeForTts (s : String) : String :=
  if s = "" then ""
  else String.mk (sanStep6 (sanStep5 (sanStep4 (sanStep3 (sanStep2 (sanStep1 (sanStep0 s).data))))))

/-! ## Theorems for claim C3 -/

theorem collapseWs_cc_true (a b : Char) (rest : List Char)
    (h : (isPySpace a && isPySpace b) = true) :
    collapseWs (a :: b :: rest) = collapseWs (b :: rest) := by
  simp [collapseWs, h]

theorem collapseWs_cc_false (a b : Char) (rest : List Char)
    (h : (isPySpace a && isPySpace b) = false) :
    collapseWs (a :: b :: rest) = (if isPySpace a then ' ' else a) :: collapseWs (b :: rest) := by
  simp only [collapseWs, h]
  rfl

/-- Characters of the collapsed list that are whitespace are single spaces. -/
theorem collapseWs_ws_eq_space : ∀ l, ∀ c ∈ collapseWs l, isPySpace c = true → c = ' ' := by
  intro l
  induction l using collapseWs.induct with
  | case1 => intro c hc; simp [collapseWs] at hc
  | case2 d hd =>
    intro c hc _
    simp [collapseWs, hd] at hc
    exact hc
  | case3 d hd =>
    intro c hc hws
    simp [collapseWs, hd] at hc
    subst hc
    simp [hws] at hd
  | case4 a b rest h ih =>
    intro c hc hws
    rw [collapseWs_cc_true a b rest h] at hc
    exact ih c hc hws
  | case5 a b rest h ih =>
    intro c hc hws
    have hf : (isPySpace a && isPySpace b) = false := by
      revert h; cases (isPySpace a && isPySpace b) <;> simp
    rw [collapseWs_cc_false a b rest hf] at hc
    rcases List.mem_cons.mp hc with hc | hc
    · subst hc
      by_cases hwa : isPySpace a = true
      · simp [hwa]
      · rw [if_neg hwa] at hws
        exact absurd hws hwa
    · exact ih c hc hws

/-- If the head of the argument is not whitespace, `collapseWs` keeps it. -/
theorem collapseWs_cons_nonws (b : Char) (rest : List Char) (hb : isPySpace b = false) :
    ∃ t, collapseWs (b :: rest) = b :: t := by
  cases rest with
  | nil => exact ⟨[], by simp [collapseWs, hb]⟩
  | cons r rs =>
    refine ⟨collapseWs (r :: rs), ?_⟩
    rw [collapseWs_cc_false b r rs (by simp [hb])]
    simp [hb]

/-- No two adjacent whitespace characters survive `collapseWs`. -/
theorem collapseWs_chain : ∀ l,
    List.Chain' (fun a b => ¬(isPySpace a = true ∧ isPySpace b = true)) (collapseWs l) := by
  intro l
  induction l using collapseWs.induct with
  | case1 => simp [collapseWs]
  | case2 d hd => simp [collapseWs, hd]
  | case3 d hd => simp [collapseWs, hd]
  | case4 a b rest h ih => rw [collapseWs_cc_true a b rest h]; exact ih
  | case5 a b rest h ih =>
    have hf : (isPySpace a && isPySpace b) = false := by
      revert h; cases (isPySpace a && isPySpace b) <;> simp
    rw [collapseWs_cc_false a b rest hf, List.chain'_cons']
    refine ⟨?_, ih⟩
    intro y hy
    by_cases hwa : isPySpace a = true
    · have hwb : isPySpace b = false := by
        cases hb : isPySpace b
        · rfl
        · rw [hwa, hb] at hf; simp at hf
      obtain ⟨t, ht⟩ := collapseWs_cons_nonws b rest hwb
      rw [ht] at hy
      simp only [List.head?_cons, Option.mem_def, Option.some.injEq] at hy
      subst hy
      simp [hwb]
    · simp [hwa]

theorem dropTrailingWs_cons (c : Char) (rest : List Char) :
    dropTrailingWs (c :: rest) =
      if (decide (dropTrailingWs rest = []) && isPySpace c) = true then []
      else c :: dropTrailingWs rest := rfl

theorem dropTrailingWs_front : ∀ l : List Char, dropTrailingWs l <+: l := by
  intro l
  induction l with
  | nil => exact ⟨[], rfl⟩
  | cons c rest ih =>
    rw [dropTrailingWs_cons]
    split
    · exact ⟨c :: rest, rfl⟩
    · obtain ⟨t, ht⟩ := ih
      exact ⟨t, by rw [List.cons_append, ht]⟩

theorem dropTrailingWs_getLast_nonws :
    ∀ l : List Char, ∀ c, (dropTrailingWs l).getLast? = some c → isPySpace c = false := by
  intro l
  induction l with
  | nil => intro c hc; simp [dropTrailingWs] at hc
  | cons a rest ih =>
    intro c hc
    rw [dropTrailingWs_cons] at hc
    by_cases hr : dropTrailingWs rest = []
    · by_cases ha : isPySpace a = true
      · rw [if_pos (by simp [hr, ha])] at hc
        simp at hc
      · rw [if_neg (by simp [ha]), hr] at hc
        simp only [List.getLast?_singleton, Option.some.injEq] at hc
        subst hc
        simpa using ha
    · rw [if_neg (by simp [hr])] at hc
      cases hdt : dropTrailingWs rest with
      | nil => exact absurd hdt hr
      | cons d ds =>
        rw [hdt, List.getLast?_cons_cons] at hc
        exact ih c (by rw [hdt]; exact hc)

theorem dropWhile_head_nonws :
    ∀ l : List Char, ∀ c t, l.dropWhile isPySpace = c :: t → isPySpace c = false := by
  intro l
  induction l with
  | nil => intro c t hc; simp at hc
  | cons a rest ih =>
    intro c t hc
    rw [List.dropWhile_cons] at hc
    split at hc
    · exact ih c t hc
    · next h =>
      cases hc
      simpa using h

/-- Whitespace-normalized string: every whitespace character is a plain
space, no two adjacent characters are both whitespace, and the first and last
characters are not whitespace. -/
def wsNormalized (l : List Char) : Prop :=
  (∀ c ∈ l, isPySpace c = true → c = ' ') ∧
  List.Chain' (fun a b => ¬(isPySpace a = true ∧ isPySpace b = true)) l ∧
  (∀ c ∈ l.head?, isPySpace c = false) ∧
  (∀ c ∈ l.getLast?, isPySpace c = false)

theorem sanStep6_normalized (l : List Char) : wsNormalized (sanStep6 l) := by
  have hsfx : (collapseWs l).dropWhile isPySpace <:+ collapseWs l :=
    List.dropWhile_suffix isPySpace
  have hpfx : dropTrailingWs ((collapseWs l).dropWhile isPySpace) <+:
      (collapseWs l).dropWhile isPySpace := dropTrailingWs_front _
  refine ⟨?_, ?_, ?_, ?_⟩
  · intro c hc hws
    exact collapseWs_ws_eq_space l c (hsfx.subset (hpfx.subset hc)) hws
  · have hs := List.Chain'.suffix (collapseWs_chain l) hsfx
    exact List.Chain'.prefix hs hpfx
  · intro c hc
    cases hfin : sanStep6 l with
    | nil => rw [hfin] at hc; simp at hc
    | cons d ds =>
      rw [hfin] at hc
      simp only [List.head?_cons, Option.mem_def, Option.some.injEq] at hc
      obtain ⟨t, ht⟩ := hpfx
      have hfin2 : dropTrailingWs ((collapseWs l).dropWhile isPySpace) = d :: ds := hfin
      rw [hfin2] at ht
      have hdw : (collapseWs l).dropWhile isPySpace = d :: (ds ++ t) := by
        rw [← ht]; simp
      have hnws := dropWhile_head_nonws _ d (ds ++ t) hdw
      rwa [hc] at hnws
  · intro c hc
    exact dropTrailingWs_getLast_nonws _ c hc

theorem collapseWs_fixed : ∀ l : List Char,
    List.Chain' (fun a b => ¬(isPySpace a = true ∧ isPySpace b = true)) l →
    (∀ c ∈ l, isPySpace c = true → c = ' ') → collapseWs l = l := by
  intro l
  induction l using collapseWs.induct with
  | case1 => intro _ _; rfl
  | case2 d hd =>
    intro _ hall
    simp only [collapseWs, hd, if_true]
    rw [hall d (by simp) hd]
  | case3 d hd => intro _ _; simp [collapseWs, hd]
  | case4 a b rest h ih =>
    intro hchain _
    rw [List.chain'_cons'] at hchain
    obtain ⟨hrel, _⟩ := hchain
    obtain ⟨hwa, hwb⟩ := Bool.and_eq_true _ _ |>.mp h
    exfalso
    have := hrel b (by cases rest <;> simp)
    exact this ⟨hwa, hwb⟩
  | case5 a b rest h ih =>
    intro hchain hall
    have hf : (isPySpace a && isPySpace b) = false := by
      revert h; cases (isPySpace a && isPySpace b) <;> simp
    rw [List.chain'_cons'] at hchain
    rw [collapseWs_cc_false a b rest hf,
      ih hchain.2 (fun c hc hws => hall c (List.mem_cons_of_mem a hc) hws)]
    by_cases hwa : isPySpace a = true
    · rw [if_pos hwa, hall a (by simp) hwa]
    · rw [if_neg hwa]

theorem dropWhile_fixed (l : List Char) (h : ∀ c ∈ l.head?, isPySpace c = false) :
    l.dropWhile isPySpace = l := by
  cases l with
  | nil => rfl
  | cons c rest =>
    rw [List.dropWhile_cons, if_neg]
    have := h c (by simp)
    simp [this]

theorem dropTrailingWs_fixed : ∀ l : List Char,
    (∀ c ∈ l.getLast?, isPySpace c = false) → dropTrailingWs l = l := by
  intro l
  induction l with
  | nil => intro _; rfl
  | cons a rest ih =>
    intro h
    cases rest with
    | nil =>
      have ha := h a (by simp)
      rw [dropTrailingWs_cons]
      simp [dropTrailingWs, ha]
    | cons b bs =>
      have hrest : dropTrailingWs (b :: bs) = b :: bs := by
        apply ih
        intro c hc
        apply h
        rw [List.getLast?_cons_cons]
        exact hc
      rw [dropTrailingWs_cons, hrest]
      simp

theorem wsNormalized_nil : wsNormalized [] := by
  unfold wsNormalized
  simp

theorem sanStep6_fixed_of_normalized (l : List Char) (h : wsNormalized l) :
    sanStep6 l = l := by
  obtain ⟨hall, hchain, hhead, hlast⟩ := h
  show dropTrailingWs ((collapseWs l).dropWhile isPySpace) = l
  rw [collapseWs_fixed l hchain hall, dropWhile_fixed l hhead, dropTrailingWs_fixed l hlast]

set_option maxRecDepth 40000 in
set_option maxHeartbeats 2000000 in
/-- C3 counterexample: TTS sanitization is not idempotent.  On the input
`"(x)Hi: there"` the first pass removes only the bracket group, leaving
`"Hi: there"`; the second pass then also strips the newly exposed leading
`"Hi: "` (the anchored STEP 1 regex), so sanitizing twice removes strictly
more than sanitizing once. -/
theorem sanitize_not_idempotent :
    sanitizeForTts "(x)Hi: there" = "Hi: there" ∧
    sanitizeForTts (sanitizeForTts "(x)Hi: there") = "there" ∧
    sanitizeForTts (sanitizeForTts "(x)Hi: there") ≠ sanitizeForTts "(x)Hi: there" :=
  ⟨by decide, by decide, by decide⟩

theorem sanitizeForTts_ne (s : String) (hs : ¬ s = "") :
    sanitizeForTts s =
      String.mk (sanStep6 (sanStep5 (sanStep4 (sanStep3 (sanStep2 (sanStep1 (sanStep0 s).data)))))) := by
  unfold sanitizeForTts
  exact if_neg hs

/-- C3 (amended): sanitization need not be idempotent — a second application
can remove further content — but it introduces no whitespace artifacts: every
sanitized output is fully whitespace-normalized (all whitespace is single
plain spaces, never adjacent, never leading or trailing), so the whitespace
normalization stage is a fixed point on sanitized text. -/
theorem sanitize_ws_stable (s : String) :
    wsNormalized (sanitizeForTts s).data ∧
    sanStep6 (sanitizeForTts s).data = (sanitizeForTts s).data := by
  by_cases hs : s = ""
  · subst hs
    have e : sanitizeForTts "" = "" := rfl
    rw [e]
    exact ⟨wsNormalized_nil, rfl⟩
  · have hdata : (sanitizeForTts s).data =
        sanStep6 (sanStep5 (sanStep4 (sanStep3 (sanStep2 (sanStep1 (sanStep0 s).data))))) := by
      rw [sanitizeForTts_ne s hs]
    have h : wsNormalized (sanitizeForTts s).data := by
      rw [hdata]
      exact sanStep6_normalized (sanStep5 (sanStep4 (sanStep3 (sanStep2 (sanStep1 (sanStep0 s).data)))))
    exact ⟨h, sanStep6_fixed_of_normalized _ h⟩

/-! ## AudioGenerator provider chain (`AudioGenerator.generate_audio`)

The three speech engines are external collaborators; a `TtsEnv` records the
observable outcome of each engine if it were invoked: `edgeSize` is the byte
size of the file Edge TTS writes (`none` = exception / nothing written),
`elevenSize` the size ElevenLabs writes on HTTP success (`none` = request
exception, which the source catches by falling back to gTTS inside
`_generate_elevenlabs_audio`), `gttsSize` the size gTTS writes (`none` =
exception).  `hasKey` is `bool(self.elevenlabs_api_key)`.  A successful call
returns which provider's file was kept and its size. -/

/-- Speech provider identifiers, in the source's priority order. -/
inductive TtsProvider where
  | edge : TtsProvider
  | eleven : TtsProvider
  | gtts : TtsProvider
deriving Repr, DecidableEq

/-- Environment of external speech-engine outcomes for one call. -/
structure TtsEnv where
  edgeSize : Option Nat
  hasKey : Bool
  elevenSize : Option Nat
  gttsSize : Option Nat
deriving Repr, DecidableEq

/-- `AudioGenerator._generate_edge_tts_audio`: keep the written file only if
`os.path.getsize(output_path) > 1000`, otherwise report failure. -/
def edgeAttempt (env : TtsEnv) : Option (TtsProvider × Nat) :=
  match env.edgeSize with
  | some n => if n > 1000 then some (.edge, n) else none
  | none => none

/-- `AudioGenerator._generate_gtts_audio`: any successfully written file is
returned, with no size check. -/
def gttsAttempt (env : TtsEnv) : Option (TtsProvider × Nat) :=
  match env.gttsSize with
  | some n => some (.gtts, n)
  | none => none

/-- `AudioGenerator._generate_elevenlabs_audio`: on HTTP success the response
body is written and returned with no size check; on any exception the method
itself falls back to gTTS. -/
def elevenAttempt (env : TtsEnv) : Option (TtsProvider × Nat) :=
  match env.elevenSize with
  | some n => some (.eleven, n)
  | none => gttsAttempt env

/-- `AudioGenerator.generate_audio`: sanitize, fail on empty text, then Edge
TTS first, then ElevenLabs when a key is configured, else gTTS directly. -/
def generateAudio (text : String) (env : TtsEnv) : Option (TtsProvider × Nat) :=
  let clean := sanitizeForTts text
  if pyStripStr clean = "" then none
  else
    match edgeAttempt env with
    | some r => some r
    | none => if env.hasKey then elevenAttempt env else gttsAttempt env

/-- ElevenLabs outcome alone (no internal gTTS fallback), used to state the
priority-ordered specification chain. -/
def elevenOnly (env : TtsEnv) : Option (TtsProvider × Nat) :=
  match env.elevenSize with
  | some n => some (.eleven, n)
  | none => none

/-- First successful attempt of an ordered list of attempts. -/
def firstSome : List (Option (TtsProvider × Nat)) → Option (TtsProvider × Nat)
  | [] => none
  | o :: rest => o <|> firstSome rest

theorem generateAudio_ne (text : String) (env : TtsEnv)
    (hsan : ¬ pyStripStr (sanitizeForTts text) = "") :
    generateAudio text env =
      match edgeAttempt env with
      | some r => some r
      | none => if env.hasKey then elevenAttempt env else gttsAttempt env := by
  unfold generateAudio
  exact if_neg hsan

/-! ## Theorems for claim C5 -/

set_option maxRecDepth 40000 in
set_option maxHeartbeats 1000000 in
/-- C5 counterexample: the ">1KB or failed" rule does not govern every
provider.  With Edge TTS failing, no ElevenLabs key, and gTTS writing a
10-byte file, the call succeeds and keeps the 10-byte file instead of
treating the attempt as failed. -/
theorem generate_audio_small_file_accepted :
    generateAudio "hello" ⟨none, false, none, some 10⟩ = some (.gtts, 10) ∧
    ¬ (10 > 1000) :=
  ⟨by decide, by decide⟩

/-- C5 (amended): for every call with non-empty sanitized text the providers
are tried in the fixed priority order Edge TTS, then ElevenLabs when a key is
configured, then gTTS, and the call fails only when every tried provider
fails; but the >1KB size threshold is applied only to the Edge TTS attempt —
ElevenLabs (on HTTP success) and gTTS keep whatever file they wrote,
regardless of size. -/
theorem generate_audio_priority_chain (text : String) (env : TtsEnv)
    (hsan : ¬ pyStripStr (sanitizeForTts text) = "") :
    generateAudio text env =
      firstSome [edgeAttempt env,
                 if env.hasKey then elevenOnly env else none,
                 gttsAttempt env] ∧
    (∀ r, edgeAttempt env = some r → r.2 > 1000) ∧
    (∀ n, env.edgeSize = some n → ¬ n > 1000 → edgeAttempt env = none) := by
  refine ⟨?_, ?_, ?_⟩
  · rw [generateAudio_ne text env hsan]
    cases henv : env.edgeSize with
    | some n =>
      by_cases hn : n > 1000
      · simp [edgeAttempt, henv, hn, firstSome]
      · cases hkey : env.hasKey <;>
          cases hel : env.elevenSize <;>
            simp [edgeAttempt, elevenAttempt, elevenOnly, gttsAttempt, henv, hn, hkey, hel,
              firstSome]
    | none =>
      cases hkey : env.hasKey <;>
        cases hel : env.elevenSize <;>
          simp [edgeAttempt, elevenAttempt, elevenOnly, gttsAttempt, henv, hkey, hel, firstSome]
  · intro r hr
    unfold edgeAttempt at hr
    split at hr
    · split at hr
      · next hgt =>
        cases hr
        exact hgt
      · cases hr
    · cases hr
  · intro n hn hle
    unfold edgeAttempt
    rw [hn]
    simp [hle]

set_option maxRecDepth 40000 in
set_option maxHeartbeats 1000000 in
/-- Witness for C5 at concrete text and a concrete environment in which Edge
TTS produced a too-small file, a key is configured and ElevenLabs succeeds. -/
theorem generate_audio_priority_chain_witness :
    (¬ pyStripStr (sanitizeForTts "hello") = "") ∧
    (generateAudio "hello" ⟨some 500, true, some 9000, none⟩ =
      firstSome [edgeAttempt ⟨some 500, true, some 9000, none⟩,
                 if (⟨some 500, true, some 9000, none⟩ : TtsEnv).hasKey then
                   elevenOnly ⟨some 500, true, some 9000, none⟩ else none,
                 gttsAttempt ⟨some 500, true, some 9000, none⟩] ∧
     (∀ r, edgeAttempt ⟨some 500, true, some 9000, none⟩ = some r → r.2 > 1000) ∧
     (∀ n, (⟨some 500, true, some 9000, none⟩ : TtsEnv).edgeSize = some n → ¬ n > 1000 →
        edgeAttempt ⟨some 500, true, some 9000, none⟩ = none)) :=
  ⟨by decide,
   generate_audio_priority_chain "hello" ⟨some 500, true, some 9000, none⟩ (by decide)⟩

/-! ## VideoEditor (`src/video_editor.py`)

The committed file contains a duplicated `else:` on consecutive lines 58–59
(a syntax error under CPython); the embedding reads the unambiguous intent of
the surrounding branch structure, i.e. a single `else:` introducing the
image-background branch.  Segment timing follows moviepy 1.x semantics, which
the source invokes explicitly: `concatenate_videoclips(clips, method="compose",
padding=p)` computes the clamped start-time array
`tt = np.maximum(0, np.cumsum([0] + [c.duration for c in clips]) + p * np.arange(len(clips) + 1))`
and then overrides the composite's timing with
`result.start, result.duration, result.end = 0, tt[-1], tt[-1]`, so the
produced video's duration is `tt[-1] = max(0, sum(durations) + p * N)`;
`concatenate_audioclips` is gapless, so the audio track's duration is the
exact sum.  Durations are exact rationals. -/

/-- One segment artifact handed to `assemble_video` by `main.py`: audio path
(`none` when the file is absent), overlay image path, and the audio clip's
duration. -/
structure SegArtifact where
  audioPath : Option String
  imagePath : Option String
  audioDur : ℚ
deriving Repr, DecidableEq

/-- The clamped start-time array `tt` of
`concatenate_videoclips(..., method="compose", padding=p)` in moviepy 1.x:
`tt[i] = max(0, d_0 + ... + d_(i-1) + p * i)` for `i = 0 .. N`. -/
def concatTT (p : ℚ) (ds : List ℚ) : List ℚ :=
  (List.range (ds.length + 1)).map (fun i => max 0 ((ds.take i).sum + p * i))

/-- Duration of the composed concatenation: moviepy 1.x overrides the
composite's duration with the last entry of the start-time array
(`result.start, result.duration, result.end = 0, tt[-1], tt[-1]`). -/
def composeDuration (p : ℚ) (ds : List ℚ) : ℚ :=
  (concatTT p ds).getLastD 0

/-- Duration of the final video of `assemble_video`, with the source's
`padding=-0.5`. -/
def videoDuration (ds : List ℚ) : ℚ :=
  composeDuration (-(1/2)) ds

/-- Per-segment on-screen durations used by `assemble_video`: the segment's
audio duration when its audio file exists, else the 5-second default; segments
without an overlay image are skipped (`if not i_path: continue`). -/
def segClipDurations (segs : List SegArtifact) : List ℚ :=
  (segs.filter (fun s => s.imagePath.isSome)).map
    (fun s => if s.audioPath.isSome then s.audioDur else 5)

/-- Durations of the audio clips collected by `assemble_video` (appended only
for surviving segments whose audio file exists); `concatenate_audioclips` is
gapless so the final audio track's duration is their exact sum. -/
def audioClipDurations (segs : List SegArtifact) : List ℚ :=
  (segs.filter (fun s => s.imagePath.isSome && s.audioPath.isSome)).map (fun s => s.audioDur)

/-! ### Background transform (C4) -/

/-- Width after `resize(height=1920)` of a `w × h` source (aspect ratio
preserved). -/
def resizedWidth (w h : ℚ) : ℚ :=
  w * 1920 / h

/-- Crop window `x1, y1, x2, y2` in the resized frame. -/
structure CropRegion where
  x1 : ℚ
  y1 : ℚ
  x2 : ℚ
  y2 : ℚ
deriving Repr, DecidableEq

/-- The crop applied by `assemble_video` to a video background:
`crop(x1=0, y1=0, width=1080, height=1920)`. -/
def bgCropRegion : CropRegion :=
  ⟨0, 0, 1080, 1920⟩

/-- Left offset a center-symmetric crop of width 1080 would use in the
resized frame. -/
def centerCropX1 (w h : ℚ) : ℚ :=
  (resizedWidth w h - 1080) / 2

/-- Source time played at output time `t` by `vfx.loop`, i.e. `t mod bgDur`. -/
def loopFrameTime (bgDur t : ℚ) : ℚ :=
  t - bgDur * ⌊t / bgDur⌋

/-- Frame function of the background clip after the loop-or-trim branch of
`assemble_video`: loop when the background is shorter than the segment
(`vfx.loop(bg_clip, duration=seg_duration)`), else `subclip(0, seg_duration)`
which plays the original frames unchanged from the start. -/
def bgClipFrame {F : Type} (bgDur segDur : ℚ) (frame : ℚ → F) : ℚ → F :=
  if bgDur < segDur then fun t => frame (loopFrameTime bgDur t) else fun t => frame t

/-- Duration of the background clip after the loop-or-trim branch: the looped
clip is built with `duration=seg_duration`, and `subclip(0, seg_duration)` has
duration `seg_duration` (the branch guarantees `seg_duration <= bgDur`). -/
def bgClipDuration (bgDur segDur : ℚ) : ℚ :=
  if bgDur < segDur then segDur else segDur

/-! ### File-state model of the encode step (C6) -/

/-- Observable outcome of `final_video.write_videofile(...)`: normal
completion, an exception raised after ffmpeg already created output at the
target path (a partial file), or an exception before anything was written. -/
inductive EncodeOutcome where
  | ok : EncodeOutcome
  | raiseAfterWrite : EncodeOutcome
  | raiseNoWrite : EncodeOutcome
deriving Repr, DecidableEq

/-- Files on disk: path and whether the file is a complete encode. -/
structure FileState where
  files : List (String × Bool)
deriving Repr, DecidableEq

/-- Record a file at `p` (`complete = false` marks a partial encode). -/
def fsAdd (fs : FileState) (p : String) (complete : Bool) : FileState :=
  ⟨(p, complete) :: fs.files⟩

/-- Is there an incomplete (partial) file at `p`? -/
def fsHasIncomplete (fs : FileState) (p : String) : Bool :=
  fs.files.any (fun e => e.1 = p && e.2 = false)

/-- Is there a complete file at `p`? -/
def fsHasComplete (fs : FileState) (p : String) : Bool :=
  fs.files.any (fun e => e.1 = p && e.2 = true)

/-- Leading-slash test (absolute POSIX path). -/
def isAbsPath (s : String) : Bool :=
  match s.data with
  | c :: _ => c = '/'
  | [] => false

/-- `os.path.join(a, b)` for the cases exercised by the sources: an absolute
second component replaces the first. -/
def pathJoin (a b : String) : String :=
  if isAbsPath b then b else a ++ "/" ++ b

/-- `write_videofile(output_path, ...)`: writes directly at the given path;
on the partial-write outcome the partial file stays at that very path. -/
def writeVideofile (path : String) (enc : EncodeOutcome) (fs : FileState) : FileState × Bool :=
  match enc with
  | .ok => (fsAdd fs path true, true)
  | .raiseAfterWrite => (fsAdd fs path false, false)
  | .raiseNoWrite => (fs, false)

/-- `VideoEditor.assemble_video`, file-state view: compute
`output_path = os.path.join(self.output_dir, output_filename)`, drop segments
without an overlay image, return `None` when no clips remain, then encode
directly at `output_path`; the enclosing `try/except` converts any exception
into `return None` and performs no cleanup of the output location. -/
def assembleVideo (segs : List SegArtifact) (outName : String) (enc : EncodeOutcome)
    (fs : FileState) : Option String × FileState :=
  let outputPath := pathJoin "generated_videos" outName
  let clips := segs.filter (fun s => s.imagePath.isSome)
  if clips = [] then (none, fs)
  else
    let r := writeVideofile outputPath enc fs
    if r.2 then (some outputPath, r.1) else (none, r.1)

/-! ## Theorems for claim C1 -/

theorem half_card_le_sum : ∀ ds : List ℚ, (∀ d ∈ ds, (1:ℚ)/2 ≤ d) →
    (ds.length : ℚ) / 2 ≤ ds.sum := by
  intro ds
  induction ds with
  | nil => intro _; simp
  | cons d rest ih =>
    intro h
    have hd := h d (by simp)
    have hr := ih (fun x hx => h x (List.mem_cons_of_mem d hx))
    simp only [List.length_cons, List.sum_cons]
    push_cast
    linarith

theorem composeDuration_eq (p : ℚ) (ds : List ℚ) :
    composeDuration p ds = max 0 (ds.sum + p * ds.length) := by
  unfold composeDuration concatTT
  rw [List.range_succ, List.map_append]
  simp only [List.map_cons, List.map_nil]
  rw [List.getLastD_concat, List.take_length]

/-- C1 (amended): for every successful assembly of `N ≥ 1` segment artifacts,
all with existing audio files and per-segment durations of at least 0.5 s,
the produced video's duration is the sum of the segment audio durations minus
`0.5 × N`: moviepy's compose-concatenation overrides the result's duration
with the last clamped start time `max(0, Σdᵢ + padding·N)` and the source
passes `padding=-0.5`.  The concatenated audio track attached to it has
exactly the full sum as its duration, so the video is `0.5 × N` seconds
shorter than its own audio track and the claimed one-frame (`1/24` s)
tolerance fails for every `N ≥ 1`. -/
theorem assemble_duration_overlap (segs : List SegArtifact)
    (hne : segs ≠ [])
    (hav : ∀ s ∈ segs, s.audioPath.isSome = true ∧ s.imagePath.isSome = true)
    (hmin : ∀ s ∈ segs, (1:ℚ)/2 ≤ s.audioDur) :
    videoDuration (segClipDurations segs) =
      (segs.map SegArtifact.audioDur).sum - (segs.length : ℚ) / 2 ∧
    (audioClipDurations segs).sum = (segs.map SegArtifact.audioDur).sum ∧
    |videoDuration (segClipDurations segs) - (audioClipDurations segs).sum| =
      (segs.length : ℚ) / 2 := by
  have hfilter1 : segs.filter (fun s => s.imagePath.isSome) = segs :=
    List.filter_eq_self.mpr (fun s hs => by simp [(hav s hs).2])
  have hfilter2 : segs.filter (fun s => s.imagePath.isSome && s.audioPath.isSome) = segs :=
    List.filter_eq_self.mpr (fun s hs => by simp [(hav s hs).1, (hav s hs).2])
  have hdur : segClipDurations segs = segs.map SegArtifact.audioDur := by
    unfold segClipDurations
    rw [hfilter1]
    exact List.map_congr_left (fun s hs => by simp [(hav s hs).1])
  have hsum : ((segs.length : ℚ)) / 2 ≤ (segs.map SegArtifact.audioDur).sum := by
    have := half_card_le_sum (segs.map SegArtifact.audioDur)
      (fun d hd => by
        obtain ⟨s, hs, rfl⟩ := List.mem_map.mp hd
        exact hmin s hs)
    rwa [List.length_map] at this
  have hvid : videoDuration (segClipDurations segs) =
      (segs.map SegArtifact.audioDur).sum - (segs.length : ℚ) / 2 := by
    rw [hdur]
    unfold videoDuration
    rw [composeDuration_eq, List.length_map, max_eq_right (by linarith)]
    ring
  have haud : (audioClipDurations segs).sum = (segs.map SegArtifact.audioDur).sum := by
    unfold audioClipDurations
    rw [hfilter2]
  refine ⟨hvid, haud, ?_⟩
  rw [hvid, haud]
  have hlen : (0:ℚ) ≤ (segs.length : ℚ) / 2 := by positivity
  rw [abs_of_nonpos (by linarith)]
  ring

/-- Witness for C1's amended theorem at two concrete artifacts with durations
3 and 4: video duration `3 + 4 − 0.5·2 = 6`, audio track `7`, discrepancy
exactly `1` second. -/
theorem assemble_duration_overlap_witness :
    let segs : List SegArtifact :=
      [⟨some "a0.mp3", some "i0.png", 3⟩, ⟨some "a1.mp3", some "i1.png", 4⟩]
    videoDuration (segClipDurations segs) =
      (segs.map SegArtifact.audioDur).sum - (segs.length : ℚ) / 2 ∧
    (audioClipDurations segs).sum = (segs.map SegArtifact.audioDur).sum ∧
    |videoDuration (segClipDurations segs) - (audioClipDurations segs).sum| =
      (segs.length : ℚ) / 2 :=
  assemble_duration_overlap _ (by decide)
    (by intro s hs; cases hs with
        | head => exact ⟨rfl, rfl⟩
        | tail _ h2 => cases h2 with
          | head => exact ⟨rfl, rfl⟩
          | tail _ h3 => cases h3)
    (by intro s hs; cases hs with
        | head => norm_num
        | tail _ h2 => cases h2 with
          | head => norm_num
          | tail _ h3 => cases h3)

/-- C1 counterexample: two segments of 5 s each.  The video track lasts
`9 s` (`tt[-1] = 10 - 0.5·2`) while the concatenated audio track lasts
exactly `10 s`; the difference of `1 s` far exceeds one frame at 24 fps
(`1/24` s), refuting the claimed tolerance. -/
theorem assemble_duration_tolerance_cex :
    let segs : List SegArtifact :=
      [⟨some "a0.mp3", some "i0.png", 5⟩, ⟨some "a1.mp3", some "i1.png", 5⟩]
    videoDuration (segClipDurations segs) = 9 ∧
    (audioClipDurations segs).sum = 10 ∧
    ¬ |videoDuration (segClipDurations segs) - (audioClipDurations segs).sum| ≤ 1/24 := by
  intro segs
  have hv : videoDuration (segClipDurations segs) = 9 := by
    have h1 : segClipDurations segs = [5, 5] := by decide
    show videoDuration (segClipDurations segs) = 9
    rw [h1]
    unfold videoDuration
    rw [composeDuration_eq]
    norm_num
  have ha : (audioClipDurations segs).sum = 10 := by
    show (audioClipDurations
      [⟨some "a0.mp3", some "i0.png", 5⟩, ⟨some "a1.mp3", some "i1.png", 5⟩]).sum = 10
    simp only [audioClipDurations, List.filter, List.map]
    norm_num
  refine ⟨hv, ha, ?_⟩
  rw [hv, ha]
  have habs : |(9:ℚ) - 10| = 1 := by
    rw [abs_of_neg (by norm_num)]
    norm_num
  rw [habs]
  norm_num

/-! ## Theorems for claim C4 -/

theorem loopFrameTime_nonneg (bgDur t : ℚ) (hpos : 0 < bgDur) :
    0 ≤ loopFrameTime bgDur t := by
  unfold loopFrameTime
  have h1 : (⌊t / bgDur⌋ : ℚ) ≤ t / bgDur := Int.floor_le _
  have h2 : bgDur * (⌊t / bgDur⌋ : ℚ) ≤ bgDur * (t / bgDur) :=
    mul_le_mul_of_nonneg_left h1 hpos.le
  rw [mul_div_cancel₀ t hpos.ne'] at h2
  linarith

theorem loopFrameTime_lt (bgDur t : ℚ) (hpos : 0 < bgDur) :
    loopFrameTime bgDur t < bgDur := by
  unfold loopFrameTime
  have h1 : t / bgDur < (⌊t / bgDur⌋ : ℚ) + 1 := Int.lt_floor_add_one _
  have h2 : bgDur * (t / bgDur) < bgDur * ((⌊t / bgDur⌋ : ℚ) + 1) :=
    (mul_lt_mul_left hpos).mpr h1
  rw [mul_div_cancel₀ t hpos.ne'] at h2
  linarith [h2]

theorem loopFrameTime_period (bgDur t : ℚ) (hpos : 0 < bgDur) :
    loopFrameTime bgDur (t + bgDur) = loopFrameTime bgDur t := by
  unfold loopFrameTime
  have hdiv : (t + bgDur) / bgDur = t / bgDur + 1 := by
    field_simp
  rw [hdiv]
  have : ⌊t / bgDur + 1⌋ = ⌊t / bgDur⌋ + 1 := by
    exact_mod_cast Int.floor_add_int (t / bgDur) 1
  rw [this]
  push_cast
  ring

theorem loopFrameTime_id (bgDur t : ℚ) (hpos : 0 < bgDur) (ht : 0 ≤ t) (hlt : t < bgDur) :
    loopFrameTime bgDur t = t := by
  unfold loopFrameTime
  have hfloor : ⌊t / bgDur⌋ = 0 := by
    rw [Int.floor_eq_zero_iff]
    constructor
    · exact div_nonneg ht hpos.le
    · rw [div_lt_one hpos]
      exact hlt
  rw [hfloor]
  push_cast
  ring

/-- C4 (amended): for a video background and any segment, the transformed
background clip lasts exactly the segment duration; when the background is
shorter than the segment it is looped — the played source time is `t mod
bgDur`, always inside `[0, bgDur)`, periodic with period `bgDur`, and equal to
the original timeline on the first cycle, so the content keeps advancing and
never freezes — otherwise the clip is trimmed to the segment duration from
the start, playing the original frames unchanged.  The subsequent
resize-and-crop, however, uses the fixed window `x1=0, y1=0, x2=1080,
y2=1920` anchored at the top-left corner of the resized frame — not a
center-symmetric crop. -/
theorem bg_video_loop_or_trim {F : Type} (bgDur segDur : ℚ) (frame : ℚ → F)
    (hpos : 0 < bgDur) :
    bgClipDuration bgDur segDur = segDur ∧
    (bgDur < segDur →
      (∀ t : ℚ, 0 ≤ loopFrameTime bgDur t ∧ loopFrameTime bgDur t < bgDur) ∧
      (∀ t : ℚ, bgClipFrame bgDur segDur frame (t + bgDur) =
        bgClipFrame bgDur segDur frame t) ∧
      (∀ t : ℚ, 0 ≤ t → t < bgDur →
        bgClipFrame bgDur segDur frame t = frame t)) ∧
    (¬ bgDur < segDur → bgClipFrame bgDur segDur frame = frame) ∧
    bgCropRegion = ⟨0, 0, 1080, 1920⟩ := by
  refine ⟨by unfold bgClipDuration; split <;> rfl, ?_, ?_, rfl⟩
  · intro hlt
    refine ⟨fun t => ⟨loopFrameTime_nonneg bgDur t hpos, loopFrameTime_lt bgDur t hpos⟩,
      ?_, ?_⟩
    · intro t
      unfold bgClipFrame
      rw [if_pos hlt]
      exact congrArg frame (loopFrameTime_period bgDur t hpos)
    · intro t ht htlt
      unfold bgClipFrame
      rw [if_pos hlt]
      exact congrArg frame (loopFrameTime_id bgDur t hpos ht htlt)
  · intro hge
    unfold bgClipFrame
    rw [if_neg hge]

/-- Witness for C4's amended theorem at `bgDur = 2`, `segDur = 5` and the
identity frame function. -/
theorem bg_video_loop_or_trim_witness :
    bgClipDuration 2 5 = 5 ∧
    ((2:ℚ) < 5 →
      (∀ t : ℚ, 0 ≤ loopFrameTime 2 t ∧ loopFrameTime 2 t < 2) ∧
      (∀ t : ℚ, bgClipFrame 2 5 (fun x : ℚ => x) (t + 2) =
        bgClipFrame 2 5 (fun x : ℚ => x) t) ∧
      (∀ t : ℚ, 0 ≤ t → t < 2 →
        bgClipFrame 2 5 (fun x : ℚ => x) t = (fun x : ℚ => x) t)) ∧
    (¬ (2:ℚ) < 5 → bgClipFrame 2 5 (fun x : ℚ => x) = (fun x : ℚ => x)) ∧
    bgCropRegion = ⟨0, 0, 1080, 1920⟩ :=
  bg_video_loop_or_trim 2 5 (fun x : ℚ => x) (by norm_num)

/-- C4 counterexample: for a 1920×1080 source the resized frame is
`10240/3 ≈ 3413.3` pixels wide, a center-symmetric crop would start at
`x1 = 3500/3 ≈ 1166.7`, but the code crops at `x1 = 0`: the excess width is
removed entirely from the right side, not symmetrically around the center. -/
theorem bg_crop_left_anchored :
    resizedWidth 1920 1080 = 10240/3 ∧
    bgCropRegion.x1 = 0 ∧
    centerCropX1 1920 1080 = 3500/3 ∧
    bgCropRegion.x1 ≠ centerCropX1 1920 1080 ∧
    resizedWidth 1920 1080 - bgCropRegion.x2 ≠ bgCropRegion.x1 := by
  refine ⟨by norm_num [resizedWidth], rfl, by norm_num [centerCropX1, resizedWidth], ?_, ?_⟩
  · show (0:ℚ) ≠ centerCropX1 1920 1080
    norm_num [centerCropX1, resizedWidth]
  · show resizedWidth 1920 1080 - (1080:ℚ) ≠ 0
    norm_num [resizedWidth]

/-! ## Theorems for claim C6 -/

/-- C6 (amended): `assemble_video` does fail the whole run on an empty
artifact list (returning `None` with the file state untouched) and converts
every encode exception into a failed run (`None`); but the encode writes
directly at the final output location and the exception handler performs no
cleanup and no temporary-path rename, so an exception raised mid-encode
leaves a partial file at the output location. -/
theorem assemble_failure_behavior (segs : List SegArtifact) (outName : String)
    (enc : EncodeOutcome) (fs : FileState) :
    assembleVideo [] outName enc fs = (none, fs) ∧
    (enc ≠ .ok → (assembleVideo segs outName enc fs).1 = none) ∧
    (enc = .raiseAfterWrite → segs.filter (fun s => s.imagePath.isSome) ≠ [] →
      assembleVideo segs outName enc fs =
        (none, fsAdd fs (pathJoin "generated_videos" outName) false)) ∧
    (enc = .ok → segs.filter (fun s => s.imagePath.isSome) ≠ [] →
      assembleVideo segs outName enc fs =
        (some (pathJoin "generated_videos" outName),
          fsAdd fs (pathJoin "generated_videos" outName) true)) := by
  refine ⟨by simp [assembleVideo], ?_, ?_, ?_⟩
  · intro hne
    cases enc with
    | ok => exact absurd rfl hne
    | raiseAfterWrite =>
      simp only [assembleVideo, writeVideofile]
      split <;> rfl
    | raiseNoWrite =>
      simp only [assembleVideo, writeVideofile]
      split <;> rfl
  · rintro rfl hclips
    simp only [assembleVideo, writeVideofile]
    rw [if_neg hclips]
    simp
  · rintro rfl hclips
    simp only [assembleVideo, writeVideofile]
    rw [if_neg hclips]
    simp

/-- Witness for C6's amended theorem at one concrete artifact, output name
and encode outcomes, with every hypothesis discharged. -/
theorem assemble_failure_behavior_witness :
    ((assembleVideo [⟨some "s0.mp3", some "c0.png", 5⟩] "/w/out.mp4" .raiseAfterWrite
        ⟨[]⟩).1 = none) ∧
    (assembleVideo [⟨some "s0.mp3", some "c0.png", 5⟩] "/w/out.mp4" .raiseAfterWrite ⟨[]⟩ =
      (none, fsAdd ⟨[]⟩ (pathJoin "generated_videos" "/w/out.mp4") false)) ∧
    (assembleVideo [⟨some "s0.mp3", some "c0.png", 5⟩] "/w/out.mp4" .ok ⟨[]⟩ =
      (some (pathJoin "generated_videos" "/w/out.mp4"),
        fsAdd ⟨[]⟩ (pathJoin "generated_videos" "/w/out.mp4") true)) :=
  ⟨(assemble_failure_behavior [⟨some "s0.mp3", some "c0.png", 5⟩] "/w/out.mp4"
      .raiseAfterWrite ⟨[]⟩).2.1 (by decide),
   (assemble_failure_behavior [⟨some "s0.mp3", some "c0.png", 5⟩] "/w/out.mp4"
      .raiseAfterWrite ⟨[]⟩).2.2.1 rfl (by decide),
   (assemble_failure_behavior [⟨some "s0.mp3", some "c0.png", 5⟩] "/w/out.mp4"
      .ok ⟨[]⟩).2.2.2 rfl (by decide)⟩

/-- C6 counterexample: an encode exception after ffmpeg started writing
leaves a partial file at the output location while `assemble_video` reports
failure — there is no temporary-path indirection and no deletion of partial
output. -/
theorem assemble_partial_file_left :
    (assembleVideo [⟨some "seg0.mp3", some "card0.png", 5⟩]
        "/work/generated_videos/news_1_7.mp4" .raiseAfterWrite ⟨[]⟩).1 = none ∧
    fsHasIncomplete
      (assembleVideo [⟨some "seg0.mp3", some "card0.png", 5⟩]
        "/work/generated_videos/news_1_7.mp4" .raiseAfterWrite ⟨[]⟩).2
      "/work/generated_videos/news_1_7.mp4" = true :=
  ⟨by decide, by decide⟩

/-! ## Orchestration (`main.py`)

`main` fetches news, builds a pool of at most five candidates, calls the
combined pick-and-generate, renders each script segment (audio first, then
overlay), assembles the surviving artifacts, and marks the chosen article as
processed only inside `if final_path and os.path.exists(final_path)`.  The
renderer outcomes are oracles: `audioOk` is the truthiness of
`audio_gen.generate_audio(...)` for the segment (that method catches every
provider exception internally and returns `None` on failure), while
`visual_gen.generate_overlay(...)` has a single return statement yielding the
always-truthy screenshot path and signals failure only by raising — such an
exception escapes `main`'s loop to the top-level handler, which prints the
traceback and calls `sys.exit(1)`.  The per-segment text preprocessing ahead
of the audio call affects only the text handed to the oracle, not the control
flow modelled here. -/

/-- Outcome of `visual_gen.generate_overlay` for one segment: its only
return statement yields the joined (hence non-empty, truthy) screenshot path;
every failure mode (browser launch, page evaluation, screenshot) raises, and
the exception propagates out of `main`'s loop. -/
inductive OverlayOutcome where
  | ok : String → OverlayOutcome
  | raise : OverlayOutcome
deriving Repr, DecidableEq

/-- Renderer outcome for one segment index. -/
structure RenderOutcome where
  audioOk : Bool
  overlay : OverlayOutcome
deriving Repr, DecidableEq

/-- The `for idx, seg in enumerate(segments)` loop of `main`: a failed audio
generation skips the segment (`continue`); the overlay call either returns
its truthy path — the `if full_img_path` guard then always appends — or
raises, aborting the loop and the whole run (`none` models the escaped
exception reaching the top-level handler). -/
def mainSegLoop : List (Nat × SegmentS) → (Nat → RenderOutcome) →
    Option (List (Nat × String))
  | [], _ => some []
  | (i, _) :: rest, out =>
    if (out i).audioOk then
      match (out i).overlay with
      | .ok img => (mainSegLoop rest out).map (fun l => (i, img) :: l)
      | .raise => none
    else mainSegLoop rest out

/-- Sanitized article id used in the output filename:
`str(article['article_id']).replace('/', '_').replace(':', '').replace('.', '')`. -/
def safeArticleId (id : String) : String :=
  pyReplace (pyReplace (pyReplace id "/" "_") ":" "") "." ""

/-- Output filename `f"news_{safe_article_id}_{unique_ts}.mp4"` (the integer
timestamp is abstracted as its decimal string). -/
def outputFilename (a : Article) (ts : String) : String :=
  "news_" ++ safeArticleId a.articleId ++ "_" ++ ts ++ ".mp4"

/-- The absolute output path `os.path.join(os.getcwd(), "generated_videos",
output_filename)` computed by `main`. -/
def expectedOutputPath (cwd : String) (a : Article) (ts : String) : String :=
  pathJoin (pathJoin cwd "generated_videos") (outputFilename a ts)

/-- External-collaborator outcomes and ambient state for one `main` run. -/
structure MainEnv where
  newsItems : List Article
  htmlClean : String → String
  gemini : GeminiOutcome
  renderOut : Nat → RenderOutcome
  enc : EncodeOutcome
  fs0 : FileState
  cwd : String
  ts : String

/-- Result of one `main` run: the process exit code (0 for the early `return`
paths and success, 1 for `sys.exit(1)`), whether
`fetcher.mark_as_processed(article_id)` was reached, the value of
`final_path`, and the final file state. -/
structure MainResult where
  exitCode : Nat
  marked : Bool
  finalPath : Option String
  fs : FileState

/-- `os.path.exists` over the modelled file state (true for partial files
too). -/
def fsExists (fs : FileState) (p : String) : Bool :=
  fsHasComplete fs p || fsHasIncomplete fs p

/-- Tail of `main` after assembly: `if final_path and os.path.exists(final_path)`
marks the article as processed and (implicitly) exits 0, otherwise
`sys.exit(1)`. -/
def mainFinish (r : Option String × FileState) : MainResult :=
  match r.1 with
  | some p =>
    if fsExists r.2 p then ⟨0, true, some p, r.2⟩
    else ⟨1, false, some p, r.2⟩
  | none => ⟨1, false, none, r.2⟩

/-- Assembly step of `main`: build the artifact dicts from the surviving
segments (audio path `generated/segment_{article_id}_{idx}.mp3`, overlay
image path), call `editor.assemble_video(bg, bg_type, final_segments, None,
output_abs_path)` and finish. -/
def mainAssembleStep (env : MainEnv) (article : Article)
    (survivors : List (Nat × String)) : MainResult :=
  let artifacts := survivors.map (fun p =>
    (⟨some ("generated/segment_" ++ article.articleId ++ "_" ++ toString p.1 ++ ".mp3"),
      some p.2, 0⟩ : SegArtifact))
  mainFinish (assembleVideo artifacts (expectedOutputPath env.cwd article env.ts)
    env.enc env.fs0)

/-- `main()` (`main.py` lines 15–144): the article dicts produced by the
fetcher are non-empty, hence truthy, so the `if n` filter keeps all of them;
`selection_pool` is the first five. -/
def mainRun (env : MainEnv) : MainResult :=
  if env.newsItems = [] then ⟨0, false, none, env.fs0⟩
  else if env.newsItems.take 5 = [] then ⟨0, false, none, env.fs0⟩
  else
    match pickAndGenerateScript env.htmlClean (env.newsItems.take 5) env.gemini with
    | none => ⟨0, false, none, env.fs0⟩
    | some (article, script) =>
      if script.segments = [] then ⟨0, false, none, env.fs0⟩
      else
        match mainSegLoop script.segments.enum env.renderOut with
        | none => ⟨1, false, none, env.fs0⟩
        | some survivors =>
          if survivors = [] then ⟨1, false, none, env.fs0⟩
          else mainAssembleStep env article survivors

theorem mainSegLoop_some_map_fst : ∀ (ps : List (Nat × SegmentS))
    (out : Nat → RenderOutcome) (l : List (Nat × String)),
    mainSegLoop ps out = some l →
    l.map Prod.fst = (ps.map Prod.fst).filter (fun i => (out i).audioOk) := by
  intro ps
  induction ps with
  | nil =>
    intro out l h
    injection h with h
    subst h
    rfl
  | cons p rest ih =>
    obtain ⟨i, s⟩ := p
    intro out l h
    cases hao : (out i).audioOk with
    | false =>
      rw [show mainSegLoop ((i, s) :: rest) out = mainSegLoop rest out from by
        simp [mainSegLoop, hao]] at h
      simp only [List.map_cons, List.filter, hao]
      exact ih out l h
    | true =>
      cases hov : (out i).overlay with
      | ok img =>
        rw [show mainSegLoop ((i, s) :: rest) out =
            (mainSegLoop rest out).map (fun l => (i, img) :: l) from by
          simp [mainSegLoop, hao, hov]] at h
        obtain ⟨l2, hl2, rfl⟩ := Option.map_eq_some'.mp h
        simp only [List.map_cons, List.filter, hao]
        rw [ih out l2 hl2]
      | raise =>
        rw [show mainSegLoop ((i, s) :: rest) out = none from by
          simp [mainSegLoop, hao, hov]] at h
        cases h

/-! ## Theorems for claim C2 -/

/-- C2 counterexample: an overlay failure is not skipped.
`visual_gen.generate_overlay` fails only by raising, and the exception aborts
the entire run via `main.py`'s top-level handler.  Here segment 0's overlay
raises while segment 1 would render perfectly; the claim predicts segment 1
survives into a produced video, but the run aborts with exit code 1,
produces no video and marks nothing. -/
theorem overlay_failure_aborts_run :
    let segs : List SegmentS := [⟨"v0", "s0"⟩, ⟨"v1", "s1"⟩]
    let out : Nat → RenderOutcome := fun i =>
      if i = 0 then ⟨true, .raise⟩ else ⟨true, .ok "slide_1.png"⟩
    let env : MainEnv :=
      ⟨[⟨"id1", "T", "", "", "s"⟩], id,
        .success 0 ⟨"h", "t", [⟨"v0", "s0"⟩, ⟨"v1", "s1"⟩], "d", [], []⟩,
        (fun i => if i = 0 then ⟨true, .raise⟩ else ⟨true, .ok "slide_1.png"⟩),
        .ok, ⟨[]⟩, "/app", "7"⟩
    mainSegLoop segs.enum out = none ∧
    (mainRun env).exitCode = 1 ∧ (mainRun env).finalPath = none ∧
    (mainRun env).marked = false :=
  ⟨by decide, by decide, by decide, by decide⟩

/-- C2 (amended): in the segment loop of `main`, a segment whose AUDIO
rendering fails is skipped and processing continues with the remaining
segments: whenever the loop completes (no overlay exception), the surviving
artifact indices are exactly the segments whose audio succeeded, in their
original relative script order, and each segment's survival depends only on
its own outcome; if the loop completes with zero survivors, the run produces
no video, marks nothing, leaves the file state untouched and exits 1.  An
OVERLAY failure, however, raises and aborts the entire run (exit 1, no
video, no marking) instead of skipping that segment. -/
theorem segment_render_failures (segs : List SegmentS) (out : Nat → RenderOutcome)
    (env : MainEnv) :
    (∀ l, mainSegLoop segs.enum out = some l →
      l.map Prod.fst = (List.range segs.length).filter (fun i => (out i).audioOk) ∧
      (l.map Prod.fst).Sublist (List.range segs.length) ∧
      (∀ i : Nat, i ∈ l.map Prod.fst ↔ (i < segs.length ∧ (out i).audioOk = true))) ∧
    (∀ a sc, pickAndGenerateScript env.htmlClean (env.newsItems.take 5) env.gemini =
        some (a, sc) →
      env.newsItems ≠ [] →
      sc.segments ≠ [] →
      ((mainSegLoop sc.segments.enum env.renderOut = none →
        (mainRun env).exitCode = 1 ∧ (mainRun env).finalPath = none ∧
          (mainRun env).marked = false ∧ (mainRun env).fs = env.fs0) ∧
       (mainSegLoop sc.segments.enum env.renderOut = some [] →
        (mainRun env).exitCode = 1 ∧ (mainRun env).finalPath = none ∧
          (mainRun env).marked = false ∧ (mainRun env).fs = env.fs0))) := by
  constructor
  · intro l hl
    have hchar : l.map Prod.fst =
        (List.range segs.length).filter (fun i => (out i).audioOk) := by
      rw [mainSegLoop_some_map_fst segs.enum out l hl, List.enum_map_fst]
    refine ⟨hchar, ?_, ?_⟩
    · rw [hchar]
      exact List.filter_sublist _
    · intro i
      rw [hchar]
      simp only [List.mem_filter, List.mem_range]
  · intro a sc hpick hnews hsegs
    have htake : ¬ env.newsItems.take 5 = [] := by
      cases hn : env.newsItems with
      | nil => exact absurd hn hnews
      | cons x xs => simp [hn]
    constructor
    · intro habort
      have hrun : mainRun env = ⟨1, false, none, env.fs0⟩ := by
        unfold mainRun
        rw [if_neg hnews, if_neg htake, hpick]
        dsimp only
        rw [if_neg hsegs, habort]
      rw [hrun]
      exact ⟨rfl, rfl, rfl, rfl⟩
    · intro hempty
      have hrun : mainRun env = ⟨1, false, none, env.fs0⟩ := by
        unfold mainRun
        rw [if_neg hnews, if_neg htake, hpick]
        dsimp only
        rw [if_neg hsegs, hempty]
        dsimp only
        rw [if_pos rfl]
      rw [hrun]
      exact ⟨rfl, rfl, rfl, rfl⟩

/-- Witness for C2's amended theorem: segment 0 fails audio and segment 1
succeeds (loop completes, survivor list is exactly segment 1), plus a run
whose loop completes with zero survivors, exiting 1 with no video, no
marking and an untouched file state. -/
theorem segment_render_failures_witness :
    let segs : List SegmentS := [⟨"v0", "s0"⟩, ⟨"v1", "s1"⟩]
    let out : Nat → RenderOutcome := fun i =>
      if i = 0 then ⟨false, .ok "x.png"⟩ else ⟨true, .ok "slide_1.png"⟩
    let env : MainEnv :=
      ⟨[⟨"id1", "T", "", "", "s"⟩], id, .success 0 ⟨"h", "t", [⟨"v0", "s0"⟩], "d", [], []⟩,
        fun _ => ⟨false, .ok "x.png"⟩, .ok, ⟨[]⟩, "/app", "7"⟩
    (mainSegLoop segs.enum out = some [(1, "slide_1.png")] ∧
      ([(1, "slide_1.png")].map Prod.fst =
        (List.range segs.length).filter (fun i => (out i).audioOk))) ∧
    ((mainRun env).exitCode = 1 ∧ (mainRun env).finalPath = none ∧
      (mainRun env).marked = false ∧ (mainRun env).fs = env.fs0) :=
  ⟨⟨by decide,
    ((segment_render_failures [⟨"v0", "s0"⟩, ⟨"v1", "s1"⟩]
        (fun i => if i = 0 then ⟨false, .ok "x.png"⟩ else ⟨true, .ok "slide_1.png"⟩)
        ⟨[⟨"id1", "T", "", "", "s"⟩], id, .success 0 ⟨"h", "t", [⟨"v0", "s0"⟩], "d", [], []⟩,
          fun _ => ⟨false, .ok "x.png"⟩, .ok, ⟨[]⟩, "/app", "7"⟩).1
      [(1, "slide_1.png")] (by decide)).1⟩,
   ((segment_render_failures [⟨"v0", "s0"⟩, ⟨"v1", "s1"⟩]
        (fun i => if i = 0 then ⟨false, .ok "x.png"⟩ else ⟨true, .ok "slide_1.png"⟩)
        ⟨[⟨"id1", "T", "", "", "s"⟩], id, .success 0 ⟨"h", "t", [⟨"v0", "s0"⟩], "d", [], []⟩,
          fun _ => ⟨false, .ok "x.png"⟩, .ok, ⟨[]⟩, "/app", "7"⟩).2
      ⟨"id1", "T", "", "", "s"⟩ ⟨"h", "t", [⟨"v0", "s0"⟩], "d", [], []⟩
      (by decide) (by decide) (by decide)).2 (by decide)⟩

/-! ## Theorems for claim C8 -/

theorem isAbsPath_append (a b : String) (h : isAbsPath a = true) :
    isAbsPath (a ++ b) = true := by
  unfold isAbsPath at h ⊢
  rw [String.data_append]
  cases ha : a.data with
  | nil => rw [ha] at h; simp at h
  | cons c cs =>
    rw [ha] at h
    simpa using h

theorem pathJoin_of_abs (a b : String) (h : isAbsPath b = true) : pathJoin a b = b := by
  unfold pathJoin
  rw [if_pos h]

theorem expectedOutputPath_abs (cwd : String) (a : Article) (ts : String)
    (h : isAbsPath cwd = true) : isAbsPath (expectedOutputPath cwd a ts) = true := by
  unfold expectedOutputPath pathJoin
  rw [if_neg (by decide : ¬ isAbsPath "generated_videos" = true)]
  split
  · next hf => exact hf
  · exact isAbsPath_append _ _ (isAbsPath_append _ _ (isAbsPath_append _ _
      (isAbsPath_append _ _ h)))

theorem fsHasComplete_fsAdd (fs : FileState) (p : String) :
    fsHasComplete (fsAdd fs p true) p = true := by
  simp [fsHasComplete, fsAdd]

theorem assembleVideo_success (segs : List SegArtifact) (outName : String)
    (enc : EncodeOutcome) (fs : FileState) (p : String)
    (h : (assembleVideo segs outName enc fs).1 = some p) :
    enc = .ok ∧ p = pathJoin "generated_videos" outName ∧
    (assembleVideo segs outName enc fs).2 =
      fsAdd fs (pathJoin "generated_videos" outName) true := by
  by_cases hclips : segs.filter (fun s => s.imagePath.isSome) = []
  · simp [assembleVideo, hclips] at h
  · cases enc with
    | ok =>
      refine ⟨rfl, ?_, ?_⟩
      · simp only [assembleVideo, writeVideofile, if_neg hclips] at h
        simp at h
        exact h.symm
      · simp only [assembleVideo, writeVideofile, if_neg hclips]
        simp
    | raiseAfterWrite =>
      simp only [assembleVideo, writeVideofile, if_neg hclips] at h
      simp at h
    | raiseNoWrite =>
      simp only [assembleVideo, writeVideofile, if_neg hclips] at h
      simp at h

theorem mainFinish_marked (r : Option String × FileState)
    (h : (mainFinish r).marked = true) :
    ∃ p, r.1 = some p ∧ fsExists r.2 p = true ∧ mainFinish r = ⟨0, true, some p, r.2⟩ := by
  unfold mainFinish at h ⊢
  cases hr : r.1 with
  | none => rw [hr] at h; simp at h
  | some p =>
    rw [hr] at h
    dsimp only at h
    by_cases hex : fsExists r.2 p = true
    · refine ⟨p, rfl, hex, ?_⟩
      dsimp only
      rw [if_pos hex]
    · rw [if_neg hex] at h
      simp at h

theorem mainAssembleStep_marked (env : MainEnv) (article : Article)
    (survivors : List (Nat × String)) (hcwd : isAbsPath env.cwd = true)
    (hmk : (mainAssembleStep env article survivors).marked = true) :
    env.enc = .ok ∧
    (mainAssembleStep env article survivors).finalPath =
      some (expectedOutputPath env.cwd article env.ts) ∧
    fsHasComplete (mainAssembleStep env article survivors).fs
      (expectedOutputPath env.cwd article env.ts) = true := by
  unfold mainAssembleStep at hmk ⊢
  obtain ⟨p, hp1, hex, heq⟩ := mainFinish_marked _ hmk
  obtain ⟨henc, hp, hfs2⟩ := assembleVideo_success _ _ _ _ p hp1
  have hjoin : pathJoin "generated_videos" (expectedOutputPath env.cwd article env.ts) =
      expectedOutputPath env.cwd article env.ts :=
    pathJoin_of_abs _ _ (expectedOutputPath_abs env.cwd article env.ts hcwd)
  have hpe : p = expectedOutputPath env.cwd article env.ts := by rw [hp, hjoin]
  rw [heq]
  refine ⟨henc, by rw [hpe], ?_⟩
  show fsHasComplete _ _ = true
  rw [hfs2, hjoin, ← hpe, hpe]
  exact fsHasComplete_fsAdd _ _

/-- C8: the chosen article is marked as processed only when the assembled
video file actually exists on disk, complete, at the expected output path
`os.path.join(cwd, "generated_videos", f"news_{safe_id}_{ts}.mp4")` — marking
requires a successful encode (`enc = ok`), and on any script-level failure,
empty-segment script, zero-survivor render, or assembly failure the run ends
with `marked = false`, before the side effect. -/
theorem marking_requires_video (env : MainEnv) (hcwd : isAbsPath env.cwd = true) :
    ((mainRun env).marked = true →
      ∃ a sc, pickAndGenerateScript env.htmlClean (env.newsItems.take 5) env.gemini =
          some (a, sc) ∧
        env.enc = .ok ∧
        (mainRun env).finalPath = some (expectedOutputPath env.cwd a env.ts) ∧
        fsHasComplete (mainRun env).fs (expectedOutputPath env.cwd a env.ts) = true) ∧
    (env.enc ≠ .ok → (mainRun env).marked = false) := by
  have hshape : (mainRun env).marked = true →
      ∃ a sc, pickAndGenerateScript env.htmlClean (env.newsItems.take 5) env.gemini =
          some (a, sc) ∧
        env.enc = .ok ∧
        (mainRun env).finalPath = some (expectedOutputPath env.cwd a env.ts) ∧
        fsHasComplete (mainRun env).fs (expectedOutputPath env.cwd a env.ts) = true := by
    intro hmk
    by_cases h1 : env.newsItems = []
    · rw [show mainRun env = ⟨0, false, none, env.fs0⟩ from by
        unfold mainRun; rw [if_pos h1]] at hmk
      simp at hmk
    by_cases h2 : env.newsItems.take 5 = []
    · rw [show mainRun env = ⟨0, false, none, env.fs0⟩ from by
        unfold mainRun; rw [if_neg h1, if_pos h2]] at hmk
      simp at hmk
    cases hpick : pickAndGenerateScript env.htmlClean (env.newsItems.take 5) env.gemini with
    | none =>
      rw [show mainRun env = ⟨0, false, none, env.fs0⟩ from by
        unfold mainRun; rw [if_neg h1, if_neg h2, hpick]] at hmk
      simp at hmk
    | some asc =>
      obtain ⟨a, sc⟩ := asc
      by_cases h3 : sc.segments = []
      · rw [show mainRun env = ⟨0, false, none, env.fs0⟩ from by
          unfold mainRun; rw [if_neg h1, if_neg h2, hpick]; dsimp only;
            rw [if_pos h3]] at hmk
        simp at hmk
      cases hsl : mainSegLoop sc.segments.enum env.renderOut with
      | none =>
        rw [show mainRun env = ⟨1, false, none, env.fs0⟩ from by
          unfold mainRun; rw [if_neg h1, if_neg h2, hpick]; dsimp only;
            rw [if_neg h3, hsl]] at hmk
        simp at hmk
      | some survivors =>
        by_cases h4 : survivors = []
        · rw [show mainRun env = ⟨1, false, none, env.fs0⟩ from by
            unfold mainRun; rw [if_neg h1, if_neg h2, hpick]; dsimp only;
              rw [if_neg h3, hsl]; dsimp only; rw [if_pos h4]] at hmk
          simp at hmk
        have hrun : mainRun env = mainAssembleStep env a survivors := by
          unfold mainRun
          rw [if_neg h1, if_neg h2, hpick]
          dsimp only
          rw [if_neg h3, hsl]
          dsimp only
          rw [if_neg h4]
        rw [hrun] at hmk ⊢
        obtain ⟨henc, hfp, hfs⟩ :=
          mainAssembleStep_marked env a survivors hcwd hmk
        exact ⟨a, sc, rfl, henc, hfp, hfs⟩
  refine ⟨hshape, ?_⟩
  intro hne
  cases hmk : (mainRun env).marked with
  | false => rfl
  | true =>
    obtain ⟨a, sc, _, henc, _, _⟩ := hshape hmk
    exact absurd henc hne

/-- Witness for C8 at a fully concrete successful run: one article, a
one-segment script from the generator, both render steps succeeding, a
successful encode and absolute working directory; the run marks the article
and the shape conclusion follows by the theorem. -/
theorem marking_requires_video_witness :
    let env : MainEnv :=
      ⟨[⟨"id1", "Title", "", "", "src"⟩], id,
        .success 0 ⟨"h", "t", [⟨"v0", "s0"⟩], "d", [], []⟩,
        fun _ => ⟨true, .ok "slide_0.png"⟩, .ok, ⟨[]⟩, "/app", "7"⟩
    isAbsPath env.cwd = true ∧
    (mainRun env).marked = true ∧
    ((mainRun env).marked = true →
      ∃ a sc, pickAndGenerateScript env.htmlClean (env.newsItems.take 5) env.gemini =
          some (a, sc) ∧
        env.enc = .ok ∧
        (mainRun env).finalPath = some (expectedOutputPath env.cwd a env.ts) ∧
        fsHasComplete (mainRun env).fs (expectedOutputPath env.cwd a env.ts) = true) :=
  ⟨by decide, by decide,
   (marking_requires_video
      ⟨[⟨"id1", "Title", "", "", "src"⟩], id,
        .success 0 ⟨"h", "t", [⟨"v0", "s0"⟩], "d", [], []⟩,
        fun _ => ⟨true, .ok "slide_0.png"⟩, .ok, ⟨[]⟩, "/app", "7"⟩
      (by decide)).1⟩
